import Mathlib

/-!
Verification of the turret repository's detection and sound modules.

Shallow embedding conventions:
- A frame (cv2 image) is a list of rows of BGR pixels; in-place numpy
  mutation becomes rebinding, and frame.copy() becomes an ordinary
  let-binding of the current value (sound because the copy severs aliasing).
- A cascade classifier is a black box: a function from an image and a
  minimum window size to a list of candidate (x, y, width, height)
  rectangles, exactly the shape of detectMultiScale.
- The cv2 primitives used by motion detection (grayscale conversion,
  blur, absdiff, threshold, dilate, contour extraction, contour area,
  bounding rectangle) are external collaborators, modelled as fields of
  a record of abstract functions.
- Wall-clock time (time.time()) is passed explicitly to Soundcat.play;
  the two time() reads inside one Python call are modelled as the same
  instant. Directory listing and the random index are likewise explicit
  function parameters. randrange(0, n) is modelled by reducing the
  supplied index modulo n, which encodes its contract of returning a
  value in [0, n); the n = 0 case raises ValueError exactly as
  randrange does.
-/

abbrev Px := Nat × Nat × Nat

abbrev Frame := List (List Px)

abbrev Rect := Nat × Nat × Nat × Nat

abbrev Cascade := Frame → Nat × Nat → List Rect

/-- Whether pixel (r, c) lies on the outline band of the axis-aligned
rectangle with corners (x1, y1), (x2, y2) drawn with the given thickness. -/
def onBorder (x1 y1 x2 y2 t r c : Nat) : Bool :=
  decide (x1 ≤ c) && decide (c ≤ x2) && decide (y1 ≤ r) && decide (r ≤ y2) &&
    (decide (c < x1 + t) || decide (x2 < c + t) || decide (r < y1 + t) || decide (y2 < r + t))

/-- Index-aware map used to realise per-pixel drawing. -/
def mapWithIdx (f : Nat → α → β) : Nat → List α → List β
  | _, [] => []
  | i, a :: as => f i a :: mapWithIdx f (i + 1) as

/-- Model of cv2.rectangle: paint the outline of the rectangle with corners
pt1 and pt2 onto the image. -/
def cv2_rectangle (img : Frame) (pt1 pt2 : Nat × Nat) (color : Px) (t : Nat) : Frame :=
  mapWithIdx
    (fun r row =>
      mapWithIdx (fun c px => if onBorder pt1.1 pt1.2 pt2.1 pt2.2 t r c then color else px) 0 row)
    0 img

/-- imgutils.box: draw one rectangle per coordinate quadruple
(top-left and bottom-right corners) onto the image, thickness 2. -/
def box (coords : List Rect) (img : Frame) (color : Px) : Frame :=
  coords.foldl (fun im r => cv2_rectangle im (r.1, r.2.1) (r.2.2.1, r.2.2.2) color 2) img

/-- imgutils.detect_pattern: run the classifier, and if anything matched
convert each candidate from (x, y, width, height) to corner-pair form via
rects[:, 2:] += rects[:, :2]; the image is returned unchanged. -/
def detect_pattern (img : Frame) (cascade : Cascade) (min_rectangle : Nat × Nat) :
    List Rect × Frame :=
  let rects := cascade img min_rectangle
  if rects.length = 0 then ([], img)
  else (rects.map fun (x, y, w, h) => (x, y, x + w, y + h), img)

/-- Model of the numpy slice frame[r1:r2, c1:c2]: rows [r1, r2) and
columns [c1, c2), silently clamped to the image extent. -/
def slice2d (img : Frame) (r1 r2 c1 c2 : Nat) : Frame :=
  ((img.drop r1).take (r2 - r1)).map fun row => (row.drop c1).take (c2 - c1)

/-- The inner loop of double_cascade: each detected face rectangle is
translated by the containing coarse origin (x, y) on both corners and drawn
in red on the full frame. -/
def draw_face_boxes (x y : Nat) (rects_face : List Rect) (frame : Frame) : Frame :=
  rects_face.foldl
    (fun fr f => box [(f.1 + x, f.2.1 + y, f.2.2.1 + x, f.2.2.2 + y)] fr (0, 0, 255)) frame

/-- The per-upperbody loop of double_cascade. Note that rects_face is
rebound (not extended) on every iteration, exactly as in the source, so the
value carried out of the loop is the last iteration's detection result. -/
def dc_loop (cascade_face : Cascade) :
    List Rect → Frame → List Rect → Frame × List Rect
  | [], frame, rects_face => (frame, rects_face)
  | (x, y, w, h) :: rest, frame, _ =>
    let frame_crop := slice2d frame y h x w
    let rects_face := (detect_pattern frame_crop cascade_face (25, 25)).1
    let frame := draw_face_boxes x y rects_face frame
    dc_loop cascade_face rest frame rects_face

/-- detect.double_cascade: coarse upperbody pass over the full frame, green
boxes, then a fine face pass inside every coarse rectangle with red boxes;
found reflects the final rects_face binding, and with return_faces the
flattened cross-product of line 67 is returned. -/
def double_cascade (frame : Frame) (return_faces : Bool)
    (cascade_upperbody cascade_face : Cascade) : Frame × Bool × Option (List Rect) :=
  let (rects_upperbody, frame) := detect_pattern frame cascade_upperbody (60, 60)
  let frame := box rects_upperbody frame (0, 255, 0)
  let (frame, rects_face) :=
    if rects_upperbody.length > 0 then dc_loop cascade_face rects_upperbody frame []
    else (frame, ([] : List Rect))
  let found := decide (rects_face.length > 0)
  if return_faces then
    (frame, found,
      some (rects_face.flatMap fun (xf, yf, wf, hf) =>
        rects_upperbody.map fun (x, y, _, _) => (xf + x, yf + y, wf + x, hf + y)))
  else (frame, found, none)

/-- Observer: the coarse (upperbody) rectangles of a double_cascade run. -/
def dc_rects_upperbody (frame : Frame) (cascade_upperbody : Cascade) : List Rect :=
  (detect_pattern frame cascade_upperbody (60, 60)).1

/-- Observer: frame and final rects_face binding of a double_cascade run. -/
def dc_state (frame : Frame) (cascade_upperbody cascade_face : Cascade) :
    Frame × List Rect :=
  let (rects_upperbody, frame) := detect_pattern frame cascade_upperbody (60, 60)
  let frame := box rects_upperbody frame (0, 255, 0)
  if rects_upperbody.length > 0 then dc_loop cascade_face rects_upperbody frame []
  else (frame, ([] : List Rect))

/-- Observer: the rects_face binding double_cascade holds when it computes
found and the returned rectangle list. -/
def dc_rects_face (frame : Frame) (cascade_upperbody cascade_face : Cascade) : List Rect :=
  (dc_state frame cascade_upperbody cascade_face).2

/-- Observer: the fine-class detection result of every coarse region, in
loop order, with the same frame threading as dc_loop. -/
def dc_face_lists_aux (cascade_face : Cascade) : List Rect → Frame → List (List Rect)
  | [], _ => []
  | (x, y, w, h) :: rest, frame =>
    let rects_face := (detect_pattern (slice2d frame y h x w) cascade_face (25, 25)).1
    rects_face :: dc_face_lists_aux cascade_face rest (draw_face_boxes x y rects_face frame)

/-- Observer: the fine-class detection results of all coarse regions of a
double_cascade run. -/
def dc_face_lists (frame : Frame) (cascade_upperbody cascade_face : Cascade) :
    List (List Rect) :=
  let (rects_upperbody, frame) := detect_pattern frame cascade_upperbody (60, 60)
  let frame := box rects_upperbody frame (0, 255, 0)
  dc_face_lists_aux cascade_face rects_upperbody frame

/- Motion detection. -/

abbrev Contour := List (Nat × Nat)

/-- The external cv2 primitives consumed by motion_detection, kept
abstract: any backend satisfying this shape is admissible. -/
structure CV2 where
  cvtColorGray : Frame → Frame
  gaussianBlur : Frame → Frame
  absdiff : Frame → Frame → Frame
  thresholdBin : Frame → Nat → Frame
  dilate : Frame → Nat → Frame
  findContours : Frame → List Contour
  contourArea : Contour → ℚ
  boundingRect : Contour → Rect

/-- Drawing step of the contour loop: green bounding box of the contour,
thickness 2, from (x, y) to (x + w, y + h). -/
def motion_draw_box (cv : CV2) (fr : Frame) (c : Contour) : Frame :=
  cv2_rectangle fr ((cv.boundingRect c).1, (cv.boundingRect c).2.1)
    ((cv.boundingRect c).1 + (cv.boundingRect c).2.2.1,
      (cv.boundingRect c).2.1 + (cv.boundingRect c).2.2.2) (0, 255, 0) 2

/-- Body of the contour loop of motion_detection: skip contours whose
contour area is below min_area, skip contours whose bounding-box area
exceeds max_area, otherwise draw the box and set found. -/
def motion_step (cv : CV2) (min_area : ℚ) (max_area : Nat)
    (acc : Frame × Bool) (c : Contour) : Frame × Bool :=
  if cv.contourArea c < min_area then acc
  else if (cv.boundingRect c).2.2.1 * (cv.boundingRect c).2.2.2 > max_area then acc
  else (motion_draw_box cv acc.1 c, true)

/-- detect.motion_detection: blur-and-difference against the reference
frame, threshold, dilate, extract contours, and filter them by area. -/
def motion_detection (cv : CV2) (frame first_frame : Frame)
    (thresh : Nat) (it : Nat) (min_area : ℚ) (max_area : Nat) :
    Frame × Frame × Bool :=
  let found := false
  let raw_frame := frame
  let first_frame := cv.gaussianBlur (cv.cvtColorGray first_frame)
  let gray := cv.gaussianBlur (cv.cvtColorGray frame)
  let frameDelta := cv.absdiff first_frame gray
  let threshImg := cv.dilate (cv.thresholdBin frameDelta thresh) it
  let cnts := cv.findContours threshImg
  let (frame, found) := cnts.foldl (motion_step cv min_area max_area) (frame, found)
  (frame, raw_frame, found)

/-- Observer: the contour list a motion_detection run filters. -/
def motion_cnts (cv : CV2) (frame first_frame : Frame) (thresh it : Nat) : List Contour :=
  cv.findContours
    (cv.dilate
      (cv.thresholdBin
        (cv.absdiff (cv.gaussianBlur (cv.cvtColorGray first_frame))
          (cv.gaussianBlur (cv.cvtColorGray frame)))
        thresh)
      it)

/-- The predicate the contour loop keeps: contour area at least min_area
and bounding-box area at most max_area. -/
def motion_keeps (cv : CV2) (min_area : ℚ) (max_area : Nat) (c : Contour) : Bool :=
  decide (min_area ≤ cv.contourArea c) &&
    decide ((cv.boundingRect c).2.2.1 * (cv.boundingRect c).2.2.2 ≤ max_area)

/- Sound categorizer. -/

/-- Python str.endswith for the model: character-level suffix test,
kernel-computable on literals. -/
def py_endswith (s suffix : String) : Bool :=
  decide (s.data.drop (s.data.length - suffix.data.length) = suffix.data)

/-- The two uncaught Python exceptions Soundcat.play can raise: the dict
lookup failure (a not-found style error) and the empty-range fault of
random.randrange (an uncontrolled index fault). -/
inductive PyError where
  | keyError (key : String)
  | valueError (msg : String)
deriving DecidableEq

/-- Whether an error is a not-found style condition: the key lookup
failure is, the randrange empty-range fault is not. -/
def PyError.isNotFoundStyle : PyError → Bool
  | .keyError _ => true
  | .valueError _ => false

/-- soundcat.Soundcat state: the category-name to directory dictionary,
the plays-per-second bound, and the last-play wall-clock timestamp. -/
structure Soundcat where
  categories : List (String × String)
  pps : ℚ
  last_play_time : ℚ
deriving DecidableEq

/-- Soundcat.__init__ at wall-clock instant now: empty dictionary and the
last-play timestamp seeded with the construction time. -/
def Soundcat.init (pps now : ℚ) : Soundcat :=
  { categories := [], pps := pps, last_play_time := now }

/-- Soundcat.add_category: bind (or overwrite) a category name to a
directory; dictionary update is modelled by prepending, with lookup taking
the most recent binding. -/
def Soundcat.add_category (sc : Soundcat) (category_name directory : String) : Soundcat :=
  { sc with categories := (category_name, directory) :: sc.categories }

/-- Soundcat.play: if rate limiting is off or more than 1/pps seconds
elapsed since the last play, look up the category (KeyError when absent),
list the directory, keep the .wav entries, pick one at random (ValueError
when there are none, as randrange(0, 0) raises), return its path as the
loaded-and-played sample and update the timestamp; otherwise do nothing. -/
def Soundcat.play (sc : Soundcat) (listdir : String → List String)
    (randrange : Nat → Nat) (now : ℚ) (category_name : String) (use_pps : Bool) :
    Except PyError (Soundcat × Option String) :=
  if !use_pps || decide (now - sc.last_play_time > 1 / sc.pps) then
    match sc.categories.lookup category_name with
    | none => .error (.keyError category_name)
    | some dir =>
      let entries := listdir dir
      let sounds := entries.filter (fun e => py_endswith e ".wav")
      if sounds.length = 0 then .error (.valueError "empty range for randrange")
      else
        let idx := randrange sounds.length % sounds.length
        .ok ({ sc with last_play_time := now }, some (dir ++ "/" ++ sounds.getD idx ""))
  else .ok (sc, none)

/- Concrete fixtures for witnesses and counterexamples. -/

/-- A 15 by 15 black frame. -/
def testFrame : Frame := List.replicate 15 (List.replicate 15 (0, 0, 0))

/-- Coarse cascade reporting two upperbody candidates, (0,0,5,7) and
(8,8,4,4) in width-height form. -/
def testUpperbody : Cascade := fun _ _ => [(0, 0, 5, 7), (8, 8, 4, 4)]

/-- Fine cascade that reports one face, (1,1,2,2) in width-height form,
exactly on crops with seven rows (the first coarse region) and nothing on
any other crop. -/
def testFace : Cascade := fun img _ => if img.length = 7 then [(1, 1, 2, 2)] else []

/-- Coarse cascade reporting a single candidate with origin (100, 50). -/
def roundtripUpperbody : Cascade := fun _ _ => [(100, 50, 60, 80)]

/-- Fine cascade reporting a single face at local origin (5, 5) with
width and height 15, hence local corner-pair form (5, 5, 20, 20). -/
def roundtripFace : Cascade := fun _ _ => [(5, 5, 15, 15)]

/-- A Soundcat constructed at time 0 with pps 1 and one category bound. -/
def testSoundcat : Soundcat := (Soundcat.init 1 0).add_category "meow" "sounds"

/-- The state of testSoundcat after an actual play at time 2. -/
def testSoundcatPlayed : Soundcat := { testSoundcat with last_play_time := 2 }

/-- Directory listing with a single wav sample. -/
def testListdir : String → List String := fun _ => ["a.wav"]

/-- Directory listing with a single non-wav entry. -/
def testListdirNoWav : String → List String := fun _ => ["song.mp3"]

/-- Deterministic stand-in for the random index source. -/
def testRandrange : Nat → Nat := fun _ => 0

/- Supporting lemmas. -/

/-- double_cascade in terms of its observers. -/
theorem double_cascade_eq (frame : Frame) (b : Bool) (cu cf : Cascade) :
    double_cascade frame b cu cf =
      ((dc_state frame cu cf).1,
        decide ((dc_rects_face frame cu cf).length > 0),
        if b then
          some ((dc_rects_face frame cu cf).flatMap fun (xf, yf, wf, hf) =>
            (dc_rects_upperbody frame cu).map fun (x, y, _, _) =>
              (xf + x, yf + y, wf + x, hf + y))
        else none) := by
  unfold double_cascade dc_rects_face dc_state dc_rects_upperbody
  rcases hdp : detect_pattern frame cu (60, 60) with ⟨ub, fr⟩
  by_cases hlen : ub.length > 0 <;> cases b <;> simp [hdp, hlen]

/-- The value dc_loop carries out in its third slot is the fine-detection
result of the last processed coarse rectangle. -/
theorem dc_loop_snd_eq (cf : Cascade) (l : List Rect) (frame : Frame) (rf0 : List Rect) :
    (dc_loop cf l frame rf0).2 = (dc_face_lists_aux cf l frame).getLastD rf0 := by
  induction l generalizing frame rf0 with
  | nil => rfl
  | cons r rest ih =>
    rcases r with ⟨x, y, w, h⟩
    simp only [dc_loop, dc_face_lists_aux]
    rw [List.getLastD_cons]
    exact ih _ _

/-- Length of a flatMap whose blocks all have the same length. -/
theorem length_flatMap_const (l : List α) (g : α → List γ) (n : Nat)
    (hg : ∀ a, (g a).length = n) : (l.flatMap g).length = l.length * n := by
  induction l with
  | nil => simp
  | cons a as ih => simp [hg, ih, Nat.succ_mul, Nat.add_comm]

/-- motion_step expressed through the keep predicate. -/
theorem motion_step_eq (cv : CV2) (mn : ℚ) (mx : Nat) (acc : Frame × Bool) (c : Contour) :
    motion_step cv mn mx acc c =
      if motion_keeps cv mn mx c then (motion_draw_box cv acc.1 c, true) else acc := by
  unfold motion_step motion_keeps
  by_cases h1 : cv.contourArea c < mn
  · simp [h1, not_le.mpr h1]
  · by_cases h2 : (cv.boundingRect c).2.2.1 * (cv.boundingRect c).2.2.2 > mx
    · simp [h1, h2, not_le.mpr h2]
    · simp [h1, h2, not_lt.mp h1, not_lt.mp h2]

/-- The contour loop draws the qualifying bounding boxes in order and
reports whether any contour qualified. -/
theorem motion_fold (cv : CV2) (mn : ℚ) (mx : Nat) (cnts : List Contour)
    (fr : Frame) (b : Bool) :
    cnts.foldl (motion_step cv mn mx) (fr, b) =
      ((cnts.filter (motion_keeps cv mn mx)).foldl (motion_draw_box cv) fr,
        b || cnts.any (motion_keeps cv mn mx)) := by
  induction cnts generalizing fr b with
  | nil => simp
  | cons c cs ih =>
    by_cases hc : motion_keeps cv mn mx c
    · simp [motion_step_eq, hc, ih]
    · simp [motion_step_eq, hc, ih]

/- Claim theorems. -/

/-- Claim C1 (code divergence witness): on a frame whose first coarse
region contains a face and whose last coarse region does not, a fine-class
rectangle is produced (and drawn) for the first region, yet double_cascade
reports found = false, because rects_face is rebound on every iteration and
only the last coarse region decides the flag. -/
theorem double_cascade_found_ignores_earlier_regions :
    dc_face_lists testFrame testUpperbody testFace = [[(1, 1, 3, 3)], []]
    ∧ (double_cascade testFrame false testUpperbody testFace).2.1 = false := by
  constructor
  · decide
  · decide

/-- Claim C2: with return_faces requested, the returned sequence is the
flattened cross-product pairing every rectangle of the fine-rectangle list
in scope at return time with every coarse rectangle's origin, each pair
contributing (xf + x, yf + y, wf + x, hf + y), so its length is the product
of the two list lengths. -/
theorem double_cascade_returns_cross_product (frame : Frame) (cu cf : Cascade) :
    (double_cascade frame true cu cf).2.2 =
      some ((dc_rects_face frame cu cf).flatMap fun (xf, yf, wf, hf) =>
        (dc_rects_upperbody frame cu).map fun (x, y, _, _) =>
          (xf + x, yf + y, wf + x, hf + y))
    ∧ (((double_cascade frame true cu cf).2.2).getD []).length =
      (dc_rects_face frame cu cf).length * (dc_rects_upperbody frame cu).length := by
  have he := double_cascade_eq frame true cu cf
  refine ⟨by rw [he]; rfl, ?_⟩
  rw [he]
  simp only [if_true, Option.getD_some]
  exact length_flatMap_const _ _ _ fun a => by
    rcases a with ⟨xf, yf, wf, hf⟩
    simp

/-- Claim C3: when the coarse pass yields a single coarse rectangle c, every
returned fine rectangle is the locally reported one with both corners
translated by the coarse origin (c.1, c.2.1). -/
theorem double_cascade_translates_by_coarse_origin (frame : Frame) (cu cf : Cascade)
    (c : Rect) (h : dc_rects_upperbody frame cu = [c]) :
    (double_cascade frame true cu cf).2.2 =
      some ((dc_rects_face frame cu cf).map fun f =>
        (f.1 + c.1, f.2.1 + c.2.1, f.2.2.1 + c.1, f.2.2.2 + c.2.1)) := by
  rw [double_cascade_eq, if_pos rfl, h]
  generalize dc_rects_face frame cu cf = rf
  induction rf with
  | nil => rfl
  | cons f fs ih =>
    rcases f with ⟨xf, yf, wf, hf⟩
    rcases c with ⟨x, y, w, h⟩
    simp_all

/-- Claim C3 witness: a fine rectangle reported locally as (5, 5, 20, 20)
inside the coarse region with origin (100, 50) comes back in full-frame
space as (105, 55, 120, 70). -/
theorem double_cascade_roundtrip_instance :
    (double_cascade testFrame true roundtripUpperbody roundtripFace).2.2 =
      some [(105, 55, 120, 70)] := by
  rw [double_cascade_translates_by_coarse_origin testFrame roundtripUpperbody roundtripFace
    (100, 50, 160, 130) (by decide)]
  decide

/-- Claim C4: processing a coarse rectangle (x, y, w, h) hands the fine
Pattern Detector exactly the slice frame[y:h, x:w], whose entry (i, j) is
the working frame's pixel (y + i, x + j) for i below h - y and j below
w - x: rows [y, h) and columns [x, w), with the third and fourth rectangle
components used directly as the exclusive crop end bounds. -/
theorem double_cascade_crop_bounds (cf : Cascade) (x y w h : Nat) (rest : List Rect)
    (frame : Frame) (rf0 : List Rect) :
    dc_loop cf ((x, y, w, h) :: rest) frame rf0 =
      dc_loop cf rest
        (draw_face_boxes x y ((detect_pattern (slice2d frame y h x w) cf (25, 25)).1) frame)
        ((detect_pattern (slice2d frame y h x w) cf (25, 25)).1)
    ∧ ∀ i j : Nat,
        ((slice2d frame y h x w)[i]?.bind fun row => row[j]?) =
          if i < h - y ∧ j < w - x then frame[y + i]?.bind fun row => row[x + j]?
          else none := by
  refine ⟨rfl, fun i j => ?_⟩
  have hrow_eq : (slice2d frame y h x w)[i]? =
      if i < h - y then (frame[y + i]?).map (fun row => (row.drop x).take (w - x))
      else none := by
    unfold slice2d
    by_cases hi : i < h - y
    · rw [List.getElem?_map, List.getElem?_take_of_lt hi, List.getElem?_drop, if_pos hi]
    · rw [if_neg hi]
      exact List.getElem?_eq_none_iff.mpr
        (by
          rw [List.length_map]
          exact le_trans (List.length_take_le _ _) (not_lt.mp hi))
  rw [hrow_eq]
  by_cases hi : i < h - y
  · rw [if_pos hi]
    cases hrow : frame[y + i]? with
    | none =>
      by_cases hj : j < w - x
      · rw [if_pos ⟨hi, hj⟩]
        rfl
      · rw [if_neg fun hand => hj hand.2]
        rfl
    | some row =>
      by_cases hj : j < w - x
      · rw [if_pos ⟨hi, hj⟩]
        show ((row.drop x).take (w - x))[j]? = row[x + j]?
        rw [List.getElem?_take_of_lt hj, List.getElem?_drop]
      · rw [if_neg fun hand => hj hand.2]
        show ((row.drop x).take (w - x))[j]? = none
        exact List.getElem?_eq_none_iff.mpr
          (le_trans (List.length_take_le _ _) (not_lt.mp hj))
  · rw [if_neg hi, if_neg fun hand => hi hand.1]
    rfl

/-- Claim C5: detect_pattern returns the classifier candidates with each
(x, y, width, height) converted to corner-pair form (x, y, x + w, y + h),
returns the image untouched, and returns the empty sequence (not an error)
when the classifier reports no candidate. -/
theorem detect_pattern_corner_conversion (img : Frame) (cascade : Cascade)
    (mr : Nat × Nat) :
    (detect_pattern img cascade mr).1 =
      (cascade img mr).map (fun (x, y, w, h) => (x, y, x + w, y + h))
    ∧ (detect_pattern img cascade mr).2 = img
    ∧ (cascade img mr = [] → (detect_pattern img cascade mr).1 = []) := by
  unfold detect_pattern
  by_cases hlen : (cascade img mr).length = 0
  · have hnil : cascade img mr = [] := List.length_eq_zero.mp hlen
    simp [hlen, hnil]
  · refine ⟨by simp [hlen], by simp [hlen], fun hnil => absurd (by simp [hnil]) hlen⟩

/-- Claim C5 witness: a candidate (1, 2, 3, 4) comes back as (1, 2, 4, 6),
and an empty classifier answer yields the empty sequence. -/
theorem detect_pattern_corner_conversion_check :
    (detect_pattern [] (fun _ _ => [(1, 2, 3, 4)]) (60, 60)).1 = [(1, 2, 4, 6)]
    ∧ (detect_pattern [] (fun _ _ => []) (60, 60)).1 = [] := by
  refine ⟨?_, (detect_pattern_corner_conversion [] (fun _ _ => []) (60, 60)).2.2 rfl⟩
  have h := (detect_pattern_corner_conversion [] (fun _ _ => [(1, 2, 3, 4)]) (60, 60)).1
  simpa using h

/-- Claim C6: a contour of motion_detection gets its bounding box drawn and
contributes to found exactly when its contour area is at least min_area and
its bounding-box area (width times height) is at most max_area; found is
true iff some contour qualifies, and the annotated frame is the input frame
with precisely the qualifying bounding boxes drawn on it. -/
theorem motion_detection_area_filter (cv : CV2) (frame first_frame : Frame)
    (thresh it : Nat) (min_area : ℚ) (max_area : Nat) :
    (motion_detection cv frame first_frame thresh it min_area max_area).2.2 =
      (motion_cnts cv frame first_frame thresh it).any (motion_keeps cv min_area max_area)
    ∧ (motion_detection cv frame first_frame thresh it min_area max_area).1 =
      ((motion_cnts cv frame first_frame thresh it).filter
        (motion_keeps cv min_area max_area)).foldl (motion_draw_box cv) frame := by
  unfold motion_detection motion_cnts
  simp only [motion_fold, Bool.false_or]
  exact ⟨trivial, trivial⟩

/-- Claim C7: motion_detection's second return value is the input frame as
it was at call entry, untouched by the grayscale, blur and drawing work of
the call (frame.copy() severs aliasing before any mutation). -/
theorem motion_detection_returns_untouched_copy (cv : CV2) (frame first_frame : Frame)
    (thresh it : Nat) (min_area : ℚ) (max_area : Nat) :
    (motion_detection cv frame first_frame thresh it min_area max_area).2.1 = frame := rfl

/-- A rate-limited play call made while the gate is closed returns without
any effect. -/
theorem Soundcat.play_suppressed (sc : Soundcat) (L : String → List String)
    (R : Nat → Nat) (now : ℚ) (cat : String)
    (h : ¬ (now - sc.last_play_time > 1 / sc.pps)) :
    sc.play L R now cat true = .ok (sc, none) := by
  unfold Soundcat.play
  rw [decide_eq_false h]
  rfl

/-- Claim C8 (counterexample to the unconditional reading): two play calls
separated by half a second, both within the 1/pps window of the timestamp
the constructor seeded, perform zero actual loads and plays, not exactly
one, and leave the state unchanged. -/
theorem soundcat_play_twice_can_play_zero :
    ((1 : ℚ) - 1 / 2 < 1 / testSoundcat.pps)
    ∧ Soundcat.play testSoundcat testListdir testRandrange (1 / 2) "meow" true =
      .ok (testSoundcat, none)
    ∧ Soundcat.play testSoundcat testListdir testRandrange 1 "meow" true =
      .ok (testSoundcat, none) := by
  refine ⟨by norm_num [testSoundcat, Soundcat.add_category, Soundcat.init], ?_, ?_⟩
  · exact Soundcat.play_suppressed testSoundcat testListdir testRandrange (1 / 2) "meow"
      (by norm_num [testSoundcat, Soundcat.add_category, Soundcat.init])
  · exact Soundcat.play_suppressed testSoundcat testListdir testRandrange 1 "meow"
      (by norm_num [testSoundcat, Soundcat.add_category, Soundcat.init])

/-- Claim C8 (amended): when the first of two rate-limited play calls on a
registered, sample-bearing category itself passes the gate, and the second
follows in under 1/pps seconds, exactly the first call loads and plays a
sample; the suppressed second call returns without playing and leaves the
last-play timestamp at the first call's time. -/
theorem soundcat_play_rate_limited_once (sc : Soundcat) (L : String → List String)
    (R : Nat → Nat) (t1 t2 : ℚ) (cat dir : String)
    (hreg : sc.categories.lookup cat = some dir)
    (hwav : ((L dir).filter fun e => py_endswith e ".wav").length ≠ 0)
    (hgate : t1 - sc.last_play_time > 1 / sc.pps)
    (hsep : t2 - t1 < 1 / sc.pps) :
    Soundcat.play sc L R t1 cat true =
      .ok ({ sc with last_play_time := t1 },
        some (dir ++ "/" ++ ((L dir).filter fun e => py_endswith e ".wav").getD
          (R ((L dir).filter fun e => py_endswith e ".wav").length %
            ((L dir).filter fun e => py_endswith e ".wav").length) ""))
    ∧ Soundcat.play { sc with last_play_time := t1 } L R t2 cat true =
      .ok ({ sc with last_play_time := t1 }, none) := by
  constructor
  · have hgate' : sc.pps⁻¹ + sc.last_play_time < t1 := by
      rw [gt_iff_lt, one_div] at hgate
      linarith
    simp [Soundcat.play, hreg, hwav, hgate']
  · have hng : ¬ sc.pps⁻¹ < t2 - t1 := by
      rw [one_div] at hsep
      exact lt_asymm hsep
    simp [Soundcat.play, hng]

/-- Claim C8 witness: with the window 1/pps = 1, a first call at time 2
(gate passed) plays sounds/a.wav and a second call at time 5/2 is
suppressed with the timestamp still at 2. -/
theorem soundcat_play_rate_limited_once_check :
    Soundcat.play testSoundcat testListdir testRandrange 2 "meow" true =
      .ok (testSoundcatPlayed, some "sounds/a.wav")
    ∧ Soundcat.play testSoundcatPlayed testListdir testRandrange (5 / 2) "meow" true =
      .ok (testSoundcatPlayed, none) := by
  obtain ⟨h1, h2⟩ := soundcat_play_rate_limited_once testSoundcat testListdir testRandrange
    2 (5 / 2) "meow" "sounds" rfl (by decide)
    (by norm_num [testSoundcat, Soundcat.add_category, Soundcat.init])
    (by norm_num [testSoundcat, Soundcat.add_category, Soundcat.init])
  exact ⟨by rw [h1]; rfl, h2⟩

/-- Claim C9 (counterexample to the as-stated reading): on a registered
category whose directory holds no .wav file, play fails with the
uncontrolled empty-range ValueError of randrange, which is not a
NotFound-style error. -/
theorem soundcat_play_empty_category_value_error :
    Soundcat.play testSoundcat testListdirNoWav testRandrange 5 "meow" false =
      .error (.valueError "empty range for randrange")
    ∧ PyError.isNotFoundStyle (.valueError "empty range for randrange") = false := by
  exact ⟨rfl, rfl⟩

/-- Claim C9 (amended): with the rate-limit gate passing (use_pps false),
play fails with the NotFound-style KeyError exactly when the category was
never registered; on a registered category it raises the empty-range
ValueError when the directory holds no .wav file, and otherwise loads and
plays a sample and updates the timestamp. -/
theorem soundcat_play_error_cases (sc : Soundcat) (L : String → List String)
    (R : Nat → Nat) (t : ℚ) (cat : String) :
    (Soundcat.play sc L R t cat false = .error (.keyError cat) ↔
      sc.categories.lookup cat = none)
    ∧ ∀ dir, sc.categories.lookup cat = some dir →
        ((((L dir).filter fun e => py_endswith e ".wav") = [] →
          Soundcat.play sc L R t cat false =
            .error (.valueError "empty range for randrange"))
        ∧ (((L dir).filter fun e => py_endswith e ".wav") ≠ [] →
          Soundcat.play sc L R t cat false =
            .ok ({ sc with last_play_time := t },
              some (dir ++ "/" ++ ((L dir).filter fun e => py_endswith e ".wav").getD
                (R ((L dir).filter fun e => py_endswith e ".wav").length %
                  ((L dir).filter fun e => py_endswith e ".wav").length) "")))) := by
  cases hlk : sc.categories.lookup cat with
  | none =>
    constructor
    · simp [Soundcat.play, hlk]
    · intro dir hdir
      exact Option.noConfusion hdir
  | some d =>
    have hne : Soundcat.play sc L R t cat false ≠ .error (.keyError cat) := by
      by_cases hfil : ((L d).filter fun e => py_endswith e ".wav").length = 0
      · simp [Soundcat.play, hlk, hfil]
      · simp [Soundcat.play, hlk, hfil]
    constructor
    · simp [hne, hlk]
    · intro dir hdir
      injection hdir with hd
      subst hd
      constructor
      · intro hfil
        simp [Soundcat.play, hlk, hfil]
      · intro hfil
        simp [Soundcat.play, hlk, hfil]

/-- Claim C9 witness: play on a category that was never registered fails
with the KeyError naming that category. -/
theorem soundcat_play_error_cases_check :
    Soundcat.play (Soundcat.init 1 0) testListdir testRandrange 5 "meow" false =
      .error (.keyError "meow") :=
  (soundcat_play_error_cases (Soundcat.init 1 0) testListdir testRandrange 5 "meow").1.mpr rfl

/-- Claim C10: the constructor seeds the last-play timestamp with the
construction time, not with a never-played sentinel, so a first rate-limited
play within 1/pps seconds of construction performs no playback at all and
leaves the state unchanged, although nothing was ever played. -/
theorem soundcat_first_play_suppressed (pps t0 t1 : ℚ) (L : String → List String)
    (R : Nat → Nat) (cat : String) (h : t1 - t0 ≤ 1 / pps) :
    (Soundcat.init pps t0).last_play_time = t0
    ∧ Soundcat.play (Soundcat.init pps t0) L R t1 cat true =
      .ok (Soundcat.init pps t0, none) := by
  refine ⟨rfl, ?_⟩
  have hng : ¬ pps⁻¹ < t1 - t0 := by
    rw [← one_div]
    exact not_lt.mpr h
  simp [Soundcat.play, Soundcat.init, hng]

/-- Claim C10 witness: a Soundcat constructed at time 0 with pps 1 ignores
a first rate-limited play at time 1. -/
theorem soundcat_first_play_suppressed_check :
    (Soundcat.init 1 0).last_play_time = 0
    ∧ Soundcat.play (Soundcat.init 1 0) testListdir testRandrange 1 "meow" true =
      .ok (Soundcat.init 1 0, none) :=
  soundcat_first_play_suppressed 1 0 1 testListdir testRandrange "meow" (by norm_num)
